import Mathlib

/-!
Shallow embedding, in Lean 4, of the Rust kernel abstractions of this
repository:

* `rust/kernel/error.rs` — kernel error codes (`Error`);
* `rust/kernel/chrdev.rs` — the bounded character-device registration
  registry (`Registration`, `SafeCdev`);
* `drivers/android/context.rs` — the Binder context-manager slot
  (`Manager`, `Context.set_manager_node`, …);
* `rust/kernel/of.rs` — the compile-time devicetree match table
  (`ConstOfMatchTable.new_const`);
* `rust/kernel/platform_driver.rs` — the run-time `of_device_id` builder
  and the platform-driver `Registration`;
* `rust/kernel/regmap.rs` — the register-map accessor (`Regmap.read`,
  `Regmap.write`);
* `drivers/char/hw_random/bcm2835_rng_rust.rs` — the RNG driver's file
  `read` handler.

External (C) calls are modelled by explicit environment records that carry
the return codes and values the environment would produce, and by event
traces listing the external calls a code path issues, in order.  Machine
integers are modelled as `Nat`/`Int`, with `% 2 ^ 32` where 32-bit
wraparound occurs in the source.
-/

/-! ## Kernel error codes (`rust/kernel/error.rs`) -/

/-- `Error` from `rust/kernel/error.rs`: a wrapped C `int` errno. -/
structure Error where
  code : Int
deriving DecidableEq, Repr

/-- `Error::from_kernel_errno` (error.rs line 53). -/
def Error.from_kernel_errno (errno : Int) : Error := ⟨errno⟩

/-- `Error::to_kernel_errno` (error.rs line 58). -/
def Error.to_kernel_errno (e : Error) : Int := e.code

/-- `Error::EINVAL = -22`. -/
def Error.EINVAL : Error := ⟨-22⟩

/-- `Error::ENOMEM = -12`. -/
def Error.ENOMEM : Error := ⟨-12⟩

/-- `Error::EBUSY = -16`. -/
def Error.EBUSY : Error := ⟨-16⟩

/-- `Error::EPERM = -1`. -/
def Error.EPERM : Error := ⟨-1⟩

/-- `KernelResult<T>` from error.rs: `Result<T, Error>`. -/
abbrev KernelResult (α : Type := Unit) := Except Error α

/-! ## Binder context-manager slot (`drivers/android/context.rs`)

`NodeRef` (from `drivers/android/node.rs`, not part of the sources) is an
opaque reference-counted node reference; we model it by an opaque
identifier.  `kuid_t` is modelled by its `val` field, a `Nat`. -/

/-- Opaque stand-in for `NodeRef`: an identifier of the referenced node. -/
abbrev NodeRef := Nat

/-- `Manager` (context.rs lines 15-18): the mutex-protected slot contents. -/
structure Manager where
  node : Option NodeRef
  uid : Option Nat
deriving DecidableEq, Repr

/-- The slot contents built by `Context::new` (context.rs lines 28-41):
both fields `None`. -/
def Manager.initial : Manager := ⟨none, none⟩

/-- `BinderError` (from `drivers/android/thread.rs`, not part of the
sources); only the `new_dead` constructor is used here.
Modelled from the spec: `get_manager_node` "fails with a dead error if no
node is stored". -/
inductive BinderError where
  | dead
deriving DecidableEq, Repr

/-- `Context::set_manager_node` (context.rs lines 43-61), as a pure state
transformer on the locked `Manager` value.

The source stubs caller-identity retrieval
(`let caller_uid = bindings::kuid_t::default(); // TODO: Get the actual
caller id.`); following the spec (§9: "tests must inject a fake identity
provider"), the caller's identity is passed in as `callerUid`.  The checks
mirror the source: `EBUSY` if a node is stored, then `EPERM` if a recorded
identity differs from the caller's, else store the node and record the
identity. -/
def Context.set_manager_node (callerUid : Nat) (nodeRef : NodeRef)
    (m : Manager) : Manager × KernelResult Unit :=
  if m.node.isSome then
    (m, .error Error.EBUSY)
  else if (match m.uid with
           | some uid => uid != callerUid
           | none => false) then
    (m, .error Error.EPERM)
  else
    ({ node := some nodeRef, uid := some callerUid }, .ok ())

/-- `Context::unset_manager_node` (context.rs lines 63-66):
`self.manager.lock().node.take()` — clears the node, returns the old
node (which the source then drops); the `uid` field is untouched. -/
def Context.unset_manager_node (m : Manager) : Manager × Option NodeRef :=
  ({ m with node := none }, m.node)

/-- `Context::get_manager_node` (context.rs lines 68-75): fails dead when
no node is stored, else clones a reference to the stored node; never
mutates the slot.  (`NodeRef::clone` lives in node.rs, outside the
sources; modelled from the spec: "produces a new reference to the stored
node … without mutating stored state".) -/
def Context.get_manager_node (strong : Bool) (m : Manager) :
    Manager × Except BinderError NodeRef :=
  match m.node with
  | none => (m, .error BinderError.dead)
  | some n => (m, .ok n)

/-- One operation on the context-manager slot. -/
inductive CtxOp where
  | set (callerUid : Nat) (nodeRef : NodeRef)
  | unset
  | get (strong : Bool)
deriving DecidableEq, Repr

/-- The state reached after one operation. -/
def ctxStep (m : Manager) (op : CtxOp) : Manager :=
  match op with
  | .set u n => (Context.set_manager_node u n m).1
  | .unset => (Context.unset_manager_node m).1
  | .get s => (Context.get_manager_node s m).1

/-- The state reached from the initial empty slot by a sequence of
operations. -/
def ctxRun (ops : List CtxOp) : Manager :=
  ops.foldl ctxStep Manager.initial

/-! ## Character-device registration registry (`rust/kernel/chrdev.rs`)

The registry talks to the environment through `alloc_chrdev_region`,
`cdev_alloc`, `cdev_init`, `cdev_add`, `cdev_del` and
`unregister_chrdev_region`.  A `ChrdevEnv` records the responses the
environment gives to one `register` call; a `ChrdevEvent` trace records
the external calls a code path issues, in order. -/

/-- `SafeCdev` (chrdev.rs line 23): wraps one non-null `struct cdev`
pointer, modelled by an opaque address. -/
structure SafeCdev where
  ptr : Nat
deriving DecidableEq, Repr

/-- External calls issued by the chrdev registry, with their arguments. -/
inductive ChrdevEvent where
  | allocChrdevRegion (minorsStart count : Nat)
  | cdevAlloc
  | cdevInit (ptr : Nat)
  | cdevAdd (ptr dev count : Nat)
  | cdevDel (ptr : Nat)
  | unregisterChrdevRegion (dev count : Nat)
deriving DecidableEq, Repr

/-- Environment responses consumed by one `Registration::register` call:
the return code and output `dev` of `alloc_chrdev_region`, the pointer
returned by `cdev_alloc` (`none` models a null return), and the return
code of `cdev_add`. -/
structure ChrdevEnv where
  allocRegionRc : Int
  allocRegionDev : Nat
  cdevAllocPtr : Option Nat
  cdevAddRc : Int
deriving DecidableEq, Repr

/-- All three external steps of one `register` call succeed. -/
def ChrdevEnv.ok (e : ChrdevEnv) : Prop :=
  e.allocRegionRc = 0 ∧ e.cdevAllocPtr.isSome = true ∧ e.cdevAddRc = 0

instance (e : ChrdevEnv) : Decidable e.ok := by
  unfold ChrdevEnv.ok; infer_instance

/-- `RegistrationInner<N>` (chrdev.rs lines 79-84): allocated namespace
identifier `dev`, count of used slots, and the slot array (of length `N`
in every reachable state). -/
structure RegistrationInner where
  dev : Nat
  used : Nat
  cdevs : List (Option SafeCdev)
deriving DecidableEq, Repr

/-- `Registration<N>` (chrdev.rs lines 89-94).  The capacity `N` is passed
to the operations as an explicit parameter; `name` and `this_module` are
opaque and carry no behaviour, so only `minors_start` is kept. -/
structure Registration where
  minorsStart : Nat
  inner : Option RegistrationInner
deriving DecidableEq, Repr

/-- `Registration::new` (chrdev.rs lines 106-117): unregistered, no inner
state. -/
def Registration.new (minorsStart : Nat) : Registration :=
  ⟨minorsStart, none⟩

/-- The part of `Registration::register` (chrdev.rs lines 163-177) that
runs once `inner` is present: capacity check, `SafeCdev::alloc`,
`cdev_init`, `set_owner` (a pure field write, no external call),
`cdev_add`, then commit of the new slot.  `evs` are events already issued
by the namespace-allocation step.  On the `cdev_add` error path the local
`SafeCdev` is dropped before the error propagates, issuing `cdev_del`
(chrdev.rs lines 70-77).  `inner.cdevs[inner.used].replace(cdev)` drops a
previously stored `SafeCdev` if that slot was occupied, issuing
`cdev_del` for it. -/
def Registration.registerInner (N : Nat) (env : ChrdevEnv)
    (this : Registration) (inner : RegistrationInner)
    (evs : List ChrdevEvent) :
    Registration × List ChrdevEvent × KernelResult Unit :=
  if inner.used = N then
    (this, evs, .error Error.EINVAL)
  else
    match env.cdevAllocPtr with
    | none =>
        (this, evs ++ [ChrdevEvent.cdevAlloc], .error Error.ENOMEM)
    | some p =>
        -- `inner.dev + inner.used as dev_t`: 32-bit `dev_t` addition.
        let devNr := (inner.dev + inner.used % 2 ^ 32) % 2 ^ 32
        if env.cdevAddRc ≠ 0 then
          (this,
           evs ++ [ChrdevEvent.cdevAlloc, ChrdevEvent.cdevInit p,
                   ChrdevEvent.cdevAdd p devNr 1, ChrdevEvent.cdevDel p],
           .error (Error.from_kernel_errno env.cdevAddRc))
        else
          let replaced :=
            match inner.cdevs.getD inner.used none with
            | some old => [ChrdevEvent.cdevDel old.ptr]
            | none => []
          ({ this with
             inner := some { inner with
                             cdevs := inner.cdevs.set inner.used (some ⟨p⟩),
                             used := inner.used + 1 } },
           evs ++ [ChrdevEvent.cdevAlloc, ChrdevEvent.cdevInit p,
                   ChrdevEvent.cdevAdd p devNr 1] ++ replaced,
           .ok ())

/-- `Registration::register` (chrdev.rs lines 137-178).  On the first call
(`inner` is `None`) the namespace is allocated: `N.try_into()?` fails with
`EINVAL` for `N ≥ 2^32` before any external call; then
`alloc_chrdev_region` runs and a non-zero return code is surfaced.
Subsequent calls skip namespace allocation. -/
def Registration.register (N : Nat) (env : ChrdevEnv)
    (this : Registration) :
    Registration × List ChrdevEvent × KernelResult Unit :=
  match this.inner with
  | none =>
      if 2 ^ 32 ≤ N then
        (this, [], .error Error.EINVAL)
      else
        let ev := ChrdevEvent.allocChrdevRegion this.minorsStart N
        if env.allocRegionRc ≠ 0 then
          (this, [ev], .error (Error.from_kernel_errno env.allocRegionRc))
        else
          let inner : RegistrationInner :=
            ⟨env.allocRegionDev, 0, List.replicate N none⟩
          Registration.registerInner N env
            { this with inner := some inner } inner [ev]
  | some inner =>
      Registration.registerInner N env this inner []

/-- `<Registration as Drop>::drop` (chrdev.rs lines 198-210) as its event
trace: take (and thereby drop) the cdevs of slots `0..used` in ascending
order, then call `unregister_chrdev_region`.  After the explicit loop the
remaining struct fields are dropped by the language; any cdev still
stored at a slot `≥ used` would be dropped only then, i.e. after the
namespace release. -/
def Registration.dropEvents (N : Nat) (this : Registration) :
    List ChrdevEvent :=
  match this.inner with
  | none => []
  | some inner =>
      ((inner.cdevs.take inner.used).filterMap
        (fun s => s.map (fun c => ChrdevEvent.cdevDel c.ptr)))
      ++ [ChrdevEvent.unregisterChrdevRegion inner.dev N]
      ++ ((inner.cdevs.drop inner.used).filterMap
        (fun s => s.map (fun c => ChrdevEvent.cdevDel c.ptr)))

/-- Well-formedness of a populated registry state: the slot array has
length `N`, at most `N` slots are used, slots below `used` are populated
and slots from `used` on are empty (indices `≥ N` are out of range, where
`getD` is `none` anyway).  This is the state invariant of
`RegistrationInner` (spec §3). -/
def RegistrationInner.wf (N : Nat) (inner : RegistrationInner) : Prop :=
  inner.cdevs.length = N ∧ inner.used ≤ N ∧
    ∀ i, i < N →
      (i < inner.used → (inner.cdevs.getD i none).isSome = true) ∧
      (inner.used ≤ i → inner.cdevs.getD i none = none)

instance (N : Nat) (inner : RegistrationInner) :
    Decidable (inner.wf N) := by
  unfold RegistrationInner.wf; infer_instance

/-- Run `register` once per environment in `envs`, collecting the results
in order and threading the state. -/
def runRegisters (N : Nat) (envs : List ChrdevEnv) (r : Registration) :
    Registration × List (KernelResult Unit) :=
  match envs with
  | [] => (r, [])
  | e :: rest =>
      let step := Registration.register N e r
      let tail := runRegisters N rest step.1
      (tail.1, step.2.2 :: tail.2)

/-! ## Devicetree match tables (`rust/kernel/of.rs`)

`bindings::of_device_id` has fields `name: [c_char; 32]`,
`type_: [c_char; 32]`, `compatible: [c_char; 128]`, `data: *const void`.
Bytes (`u8`) are modelled as `Nat` below `256`; `c_char` (`i8`) as `Int`
via the cast `cCharOfByte`. -/

/-- The `u8 → c_char` (`i8`) cast used when copying strings into an
`of_device_id` (of.rs line 91, platform_driver.rs line 54). -/
def cCharOfByte (b : Nat) : Int :=
  if b < 128 then (b : Int) else (b : Int) - 256

/-- `bindings::of_device_id`. -/
structure OfDeviceId where
  name : List Int
  type_ : List Int
  compatible : List Int
  data : Nat
deriving DecidableEq, Repr

/-- `ConstOfMatchTable::zeroed_of_device_id` (of.rs lines 72-79): every
field zeroed, `data` null. -/
def zeroedOfDeviceId : OfDeviceId :=
  { name := List.replicate 32 0
    type_ := List.replicate 32 0
    compatible := List.replicate 128 0
    data := 0 }

/-- The copy loop of `new_of_device_id` (of.rs lines 85-93 and, via
`copy_from_slice`, platform_driver.rs lines 49-51): write byte `s[j]` to
`buf[i + j]` for every `j`.  In the source an out-of-range index is a
build-time "index out of bounds" error (of.rs lines 89-90); here
`List.set` leaves the buffer unchanged at out-of-range indices and the
theorems carry the in-range bound. -/
def storeCChars (buf : List Int) (s : List Nat) (i : Nat) : List Int :=
  match s with
  | [] => buf
  | b :: rest => storeCChars (buf.set i (cCharOfByte b)) rest (i + 1)

/-- `as_bytes_with_nul` of `str::CStr` (rust/kernel/str.rs, not under
src/).  Modelled from the spec: a compatibility string is its content
bytes, and the C string carries one terminating nul byte after them. -/
def CStr.asBytesWithNul (s : List Nat) : List Nat := s ++ [0]

/-- `ConstOfMatchTable::new_of_device_id` (of.rs lines 81-95): zeroed
entry whose `compatible` field receives the bytes-with-nul of the input
string. -/
def ConstOfMatchTable.new_of_device_id (compatibleWithNul : List Nat) :
    OfDeviceId :=
  { zeroedOfDeviceId with
    compatible :=
      storeCChars zeroedOfDeviceId.compatible compatibleWithNul 0 }

/-- `ConstOfMatchTable<N>` (of.rs lines 46-50): `N` entries followed by
the all-zero sentinel (`repr(C)`, so the two fields are laid out as one
contiguous `N + 1`-entry array). -/
structure ConstOfMatchTable where
  table : List OfDeviceId
  sentinel : OfDeviceId
deriving DecidableEq, Repr

/-- `ConstOfMatchTable::new_const` (of.rs lines 54-70): start from a
zeroed table and overwrite entry `i` with
`new_of_device_id(compatibles[i])` for each `i < N` — every index exactly
once, in order, i.e. a map over the inputs — and zero the sentinel.
Inputs are given as content byte strings; the `&'static CStr` argument
supplies their bytes with the trailing nul. -/
def ConstOfMatchTable.new_const (compatibles : List (List Nat)) :
    ConstOfMatchTable :=
  { table := compatibles.map
      (fun s => ConstOfMatchTable.new_of_device_id (CStr.asBytesWithNul s))
    sentinel := zeroedOfDeviceId }

/-- The `N + 1` contiguous entries a consumer reads through `as_ptr`
(of.rs lines 19-39): the `N` table entries then the sentinel. -/
def ConstOfMatchTable.entries (t : ConstOfMatchTable) : List OfDeviceId :=
  t.table ++ [t.sentinel]

/-! ## Platform-driver registration (`rust/kernel/platform_driver.rs`) -/

namespace Platform

/-- `new_of_device_id` (platform_driver.rs lines 41-57).  `compatible` is
the underlying byte slice of the `CStr<'static>` argument; `types::CStr`
(not under src/) is modelled from its contract: the slice ends with its
single nul byte, and `len()`/`as_bytes()` cover the full slice, nul
included.  `buf = [0u8; 128]`; a slice longer than `buf` fails with
`EINVAL` (the redundant `get_mut(..len).ok_or(EINVAL)` can no longer fail
after that check); otherwise the slice is copied to the front of `buf`,
which is then reinterpreted as `[c_char; 128]`; all other fields are
`Default` (zero). -/
def new_of_device_id (compatible : List Nat) : KernelResult OfDeviceId :=
  if compatible.length > 128 then
    .error Error.EINVAL
  else
    .ok { zeroedOfDeviceId with
          compatible :=
            storeCChars zeroedOfDeviceId.compatible compatible 0 }

/-- The fields of `bindings::platform_driver` that `register` writes:
`driver.name`, `driver.of_match_table`, `probe`, `remove`
(platform_driver.rs lines 104-107).  Pointers are opaque `Nat`s;
`Default` zeroes/unsets everything. -/
structure PlatformDriverRecord where
  driverName : Nat
  ofMatchTableSet : Bool
  probeSet : Bool
  removeSet : Bool
deriving DecidableEq, Repr

/-- External calls issued by the platform-driver registration. -/
inductive PlatformEvent where
  | platformDriverRegister
  | platformDriverUnregister
deriving DecidableEq, Repr

/-- The return code of `__platform_driver_register`. -/
structure PlatformEnv where
  registerRc : Int
deriving DecidableEq, Repr

/-- `Registration` (platform_driver.rs lines 77-83). -/
structure Registration where
  registered : Bool
  pdrv : PlatformDriverRecord
  of_table : List OfDeviceId
deriving DecidableEq, Repr

/-- `Registration::default()` (platform_driver.rs line 77,
`#[derive(Default)]`): unregistered, zeroed driver record, two zeroed
`of_device_id` entries. -/
def Registration.default : Registration :=
  { registered := false
    pdrv := ⟨0, false, false, false⟩
    of_table := [zeroedOfDeviceId, zeroedOfDeviceId] }

/-- `Registration::register` (platform_driver.rs lines 86-114): `EINVAL`
if already registered; build `of_table[0]` from `of_id` (propagating its
error, state untouched); fill in the driver record; call
`__platform_driver_register`, surfacing a negative return code; on
success set `registered`. -/
def Registration.register (env : PlatformEnv) (namePtr : Nat)
    (ofId : List Nat) (this : Registration) :
    Registration × List PlatformEvent × KernelResult Unit :=
  if this.registered then
    (this, [], .error Error.EINVAL)
  else
    match new_of_device_id ofId with
    | .error e => (this, [], .error e)
    | .ok id =>
        let this' : Registration :=
          { this with
            of_table := this.of_table.set 0 id
            pdrv := { driverName := namePtr, ofMatchTableSet := true,
                      probeSet := true, removeSet := true } }
        if env.registerRc < 0 then
          (this', [PlatformEvent.platformDriverRegister],
           .error (Error.from_kernel_errno env.registerRc))
        else
          ({ this' with registered := true },
           [PlatformEvent.platformDriverRegister], .ok ())

/-- `<Registration as Drop>::drop` (platform_driver.rs lines 127-136) as
its event trace: `platform_driver_unregister` exactly when `registered`
is set. -/
def Registration.dropEvents (this : Registration) : List PlatformEvent :=
  if this.registered then [PlatformEvent.platformDriverUnregister] else []

end Platform

/-! ## Register-map accessor (`rust/kernel/regmap.rs`)

`regmap_write`/`regmap_read` are external calls; a `RegmapEnv` carries
the return code of each and the value the environment stores through
`regmap_read`'s out-pointer. -/

/-- Environment responses for one `Regmap` call. -/
structure RegmapEnv where
  writeRc : Int
  readRc : Int
  readVal : Nat
deriving DecidableEq, Repr

/-- `Regmap::write` (regmap.rs lines 35-44): a non-zero return code from
`regmap_write` is surfaced via `Error::from_kernel_errno`. -/
def Regmap.write (env : RegmapEnv) (reg val : Nat) : KernelResult Unit :=
  if env.writeRc ≠ 0 then .error (Error.from_kernel_errno env.writeRc)
  else .ok ()

/-- `Regmap::read` (regmap.rs lines 46-58): a non-zero return code from
`regmap_read` is surfaced via `Error::from_kernel_errno`; on success the
`u32` the environment stored through the out-pointer is returned. -/
def Regmap.read (env : RegmapEnv) (reg : Nat) : KernelResult Nat :=
  if env.readRc ≠ 0 then .error (Error.from_kernel_errno env.readRc)
  else .ok (env.readVal % 2 ^ 32)

/-! ## RNG driver read handler
(`drivers/char/hw_random/bcm2835_rng_rust.rs` lines 54-67; identical in
`samples/rust/rust_platdev.rs` lines 59-72). -/

/-- `RNG_CTRL` register address. -/
def RNG_CTRL : Nat := 0x0

/-- `RNG_STATUS` register address. -/
def RNG_STATUS : Nat := 0x4

/-- `RNG_DATA` register address. -/
def RNG_DATA : Nat := 0x8

/-- The four bytes of a `u32`, in the little-endian order in which
`data.write(&val)` copies them to the output buffer. -/
def u32Bytes (v : Nat) : List Nat :=
  [v % 256, v / 2 ^ 8 % 256, v / 2 ^ 16 % 256, v / 2 ^ 24 % 256]

/-- `IoBufferWriter` (rust/kernel/io_buffer.rs, not under src/).
Modelled from the spec: only the buffer's emptiness and the bytes written
so far are specified ("the driver's read handler returns 0 bytes without
touching the output buffer"; "exactly 4 bytes are copied"). -/
structure IoBuffer where
  isEmpty : Bool
  written : List Nat
deriving DecidableEq, Repr

/-- Environment responses for one RNG `read` call: return code and value
of the `RNG_STATUS` regmap read, and of the `RNG_DATA` regmap read. -/
structure RngEnv where
  statusRc : Int
  statusVal : Nat
  dataRc : Int
  dataVal : Nat
deriving DecidableEq, Repr

/-- `RngDevice::read` (bcm2835_rng_rust.rs lines 54-67): return 0 for an
empty buffer or a non-zero offset; read `RNG_STATUS` and use bits 31..24
as the available word count; return 0 without touching the buffer when it
is zero; otherwise read `RNG_DATA`, write its 4 bytes to the buffer and
return 4.  Errors of either regmap read are propagated by `?`. -/
def RngDevice.read (env : RngEnv) (buf : IoBuffer) (offset : Nat) :
    IoBuffer × KernelResult Nat :=
  if buf.isEmpty ∨ offset ≠ 0 then
    (buf, .ok 0)
  else
    match Regmap.read ⟨0, env.statusRc, env.statusVal⟩ RNG_STATUS with
    | .error e => (buf, .error e)
    | .ok status =>
        let numWords := status >>> 24
        if numWords = 0 then
          (buf, .ok 0)
        else
          match Regmap.read ⟨0, env.dataRc, env.dataVal⟩ RNG_DATA with
          | .error e => (buf, .error e)
          | .ok v =>
              ({ buf with written := buf.written ++ u32Bytes v }, .ok 4)

/-! ## Theorems -/

theorem ctxStep_preserves_uid_isSome (m : Manager) (op : CtxOp)
    (h : m.node.isSome → m.uid.isSome) :
    (ctxStep m op).node.isSome → (ctxStep m op).uid.isSome := by
  cases op with
  | set u n =>
      simp only [ctxStep, Context.set_manager_node]
      by_cases hn : m.node.isSome
      · simpa [hn] using h
      · cases hu : m.uid with
        | none => simp [hn, hu]
        | some uid =>
            by_cases he : uid = u
            · simp [hn, hu, he]
            · simpa [hn, hu, he] using h
  | unset => simp [ctxStep, Context.unset_manager_node]
  | get s =>
      cases hn : m.node with
      | none => simpa [ctxStep, Context.get_manager_node, hn] using h
      | some n => simpa [ctxStep, Context.get_manager_node, hn] using h

/-- C4: `set_manager_node` fails with `EBUSY` when a node is stored, with
`EPERM` when a previously recorded identity differs from the caller's,
and otherwise stores the node and records the caller's identity; every
failure leaves the slot unchanged.  The identity is sticky across
`unset_manager_node`: after a set by `callerUid` and an unset, a set by a
different identity fails with `EPERM` (slot unchanged) while a set by
`callerUid` succeeds again. -/
theorem context_set_manager_node_spec (m : Manager) (callerUid n : Nat) :
    (∀ k, m.node = some k →
      Context.set_manager_node callerUid n m = (m, .error Error.EBUSY)) ∧
    (m.node = none → ∀ u, m.uid = some u → u ≠ callerUid →
      Context.set_manager_node callerUid n m = (m, .error Error.EPERM)) ∧
    (m.node = none → (m.uid = none ∨ m.uid = some callerUid) →
      Context.set_manager_node callerUid n m =
        (⟨some n, some callerUid⟩, .ok ())) ∧
    (∀ uid' n' n'', uid' ≠ callerUid →
      Context.set_manager_node uid' n'
          (Context.unset_manager_node
            (Context.set_manager_node callerUid n Manager.initial).1).1 =
        ((Context.unset_manager_node
            (Context.set_manager_node callerUid n Manager.initial).1).1,
         .error Error.EPERM) ∧
      Context.set_manager_node callerUid n''
          (Context.unset_manager_node
            (Context.set_manager_node callerUid n Manager.initial).1).1 =
        (⟨some n'', some callerUid⟩, .ok ())) := by
  refine ⟨?_, ?_, ?_, ?_⟩
  · intro k hk
    simp [Context.set_manager_node, hk]
  · intro hn u hu hne
    simp [Context.set_manager_node, hn, hu, hne]
  · intro hn hu
    rcases hu with hu | hu <;> simp [Context.set_manager_node, hn, hu]
  · intro uid' n' n'' hne
    constructor
    · simp [Context.set_manager_node, Context.unset_manager_node,
        Manager.initial, Ne.symm hne]
    · simp [Context.set_manager_node, Context.unset_manager_node,
        Manager.initial]

/-- Witness for C4 at concrete inputs. -/
theorem context_set_manager_node_spec_witness :
    Context.set_manager_node 1 7 ⟨some 5, some 0⟩ =
      (⟨some 5, some 0⟩, .error Error.EBUSY) ∧
    Context.set_manager_node 1 7 ⟨none, some 0⟩ =
      (⟨none, some 0⟩, .error Error.EPERM) ∧
    Context.set_manager_node 1 7 ⟨none, none⟩ =
      (⟨some 7, some 1⟩, .ok ()) ∧
    Context.set_manager_node 2 8
        (Context.unset_manager_node
          (Context.set_manager_node 1 7 Manager.initial).1).1 =
      ((Context.unset_manager_node
          (Context.set_manager_node 1 7 Manager.initial).1).1,
       .error Error.EPERM) ∧
    Context.set_manager_node 1 9
        (Context.unset_manager_node
          (Context.set_manager_node 1 7 Manager.initial).1).1 =
      (⟨some 9, some 1⟩, .ok ()) := by
  refine ⟨(context_set_manager_node_spec ⟨some 5, some 0⟩ 1 7).1 5 rfl,
          (context_set_manager_node_spec ⟨none, some 0⟩ 1 7).2.1 rfl 0 rfl
            (by decide),
          (context_set_manager_node_spec ⟨none, none⟩ 1 7).2.2.1 rfl
            (Or.inl rfl),
          ((context_set_manager_node_spec Manager.initial 1 7).2.2.2 2 8 9
            (by decide)).1,
          ((context_set_manager_node_spec Manager.initial 1 7).2.2.2 2 8 9
            (by decide)).2⟩

/-- C5 counterexample: after `set` then `unset` — a state reachable from
the initial empty slot — the node is cleared but the identity is still
recorded, so "the identity field is `None` if and only if the node field
is `None`" fails on the code. -/
theorem context_identity_iff_node_counterexample :
    (ctxRun [CtxOp.set 0 5, CtxOp.unset]).node = none ∧
    (ctxRun [CtxOp.set 0 5, CtxOp.unset]).uid = some 0 ∧
    ¬ ((ctxRun [CtxOp.set 0 5, CtxOp.unset]).uid = none ↔
       (ctxRun [CtxOp.set 0 5, CtxOp.unset]).node = none) := by decide

/-- C5 (amended): in every state reachable from the initial empty slot,
if a node is stored then an identity is recorded (equivalently: a `None`
identity implies a `None` node).  The converse fails — after an unset the
identity is retained while the node is cleared. -/
theorem context_node_some_implies_uid_some (ops : List CtxOp) :
    (ctxRun ops).node.isSome = true → (ctxRun ops).uid.isSome = true := by
  suffices h : ∀ m : Manager, (m.node.isSome → m.uid.isSome) →
      ((ops.foldl ctxStep m).node.isSome →
        (ops.foldl ctxStep m).uid.isSome) by
    exact h Manager.initial (by simp [Manager.initial])
  induction ops with
  | nil => intro m hm; simpa using hm
  | cons op rest ih =>
      intro m hm
      simpa using ih (ctxStep m op) (ctxStep_preserves_uid_isSome m op hm)

/-- Witness for the amended C5 at a concrete operation sequence. -/
theorem context_node_some_implies_uid_some_witness :
    (ctxRun [CtxOp.set 3 9]).uid.isSome = true :=
  context_node_some_implies_uid_some [CtxOp.set 3 9] (by decide)

theorem registerInner_ok (N : Nat) (env : ChrdevEnv) (ms : Nat)
    (inner : RegistrationInner) (evs : List ChrdevEvent)
    (hlt : inner.used < N)
    (hempty : inner.cdevs.getD inner.used none = none)
    (p : Nat) (hp : env.cdevAllocPtr = some p) (hadd : env.cdevAddRc = 0) :
    Registration.registerInner N env ⟨ms, some inner⟩ inner evs =
      (⟨ms, some { inner with
                   cdevs := inner.cdevs.set inner.used (some ⟨p⟩),
                   used := inner.used + 1 }⟩,
       evs ++ [ChrdevEvent.cdevAlloc, ChrdevEvent.cdevInit p,
               ChrdevEvent.cdevAdd p
                 ((inner.dev + inner.used % 2 ^ 32) % 2 ^ 32) 1],
       .ok ()) := by
  simp only [List.getD_eq_getElem?_getD] at hempty
  simp [Registration.registerInner, hlt.ne, hp, hadd, hempty]

theorem wf_fresh (N dev : Nat) :
    RegistrationInner.wf N ⟨dev, 0, List.replicate N none⟩ := by
  refine ⟨by simp, Nat.zero_le N, ?_⟩
  intro i hi
  exact ⟨fun h => absurd h (Nat.not_lt_zero i), fun _ => by simp⟩

theorem wf_step (N : Nat) (inner : RegistrationInner) (p : Nat)
    (hwf : inner.wf N) (hlt : inner.used < N) :
    RegistrationInner.wf N
      { inner with
        cdevs := inner.cdevs.set inner.used (some ⟨p⟩),
        used := inner.used + 1 } := by
  obtain ⟨hlen, _, hslots⟩ := hwf
  refine ⟨by simp [hlen], hlt, ?_⟩
  intro i hi
  dsimp only
  constructor
  · intro hi2
    rcases Nat.lt_succ_iff_lt_or_eq.mp hi2 with hi3 | hi3
    · have hne : inner.used ≠ i := (Nat.ne_of_lt hi3).symm
      simpa [List.getElem?_set_ne hne] using (hslots i hi).1 hi3
    · subst hi3
      simp [List.getElem?_set_self (hlen ▸ hlt)]
  · intro hge
    have hne : inner.used ≠ i := by omega
    simpa [List.getElem?_set_ne hne] using (hslots i hi).2 (by omega)

theorem register_some_ok (N : Nat) (env : ChrdevEnv) (ms : Nat)
    (inner : RegistrationInner) (hwf : inner.wf N) (hlt : inner.used < N)
    (p : Nat) (hp : env.cdevAllocPtr = some p) (hadd : env.cdevAddRc = 0) :
    Registration.register N env ⟨ms, some inner⟩ =
      (⟨ms, some { inner with
                   cdevs := inner.cdevs.set inner.used (some ⟨p⟩),
                   used := inner.used + 1 }⟩,
       [ChrdevEvent.cdevAlloc, ChrdevEvent.cdevInit p,
        ChrdevEvent.cdevAdd p
          ((inner.dev + inner.used % 2 ^ 32) % 2 ^ 32) 1],
       .ok ()) := by
  have hempty : inner.cdevs.getD inner.used none = none :=
    (hwf.2.2 inner.used hlt).2 (Nat.le_refl _)
  have h := registerInner_ok N env ms inner [] hlt hempty p hp hadd
  simpa [Registration.register] using h

theorem register_none_unfold (N : Nat) (env : ChrdevEnv) (ms : Nat) :
    Registration.register N env ⟨ms, none⟩ =
      if 2 ^ 32 ≤ N then (⟨ms, none⟩, [], .error Error.EINVAL)
      else if env.allocRegionRc ≠ 0 then
        (⟨ms, none⟩, [ChrdevEvent.allocChrdevRegion ms N],
         .error (Error.from_kernel_errno env.allocRegionRc))
      else
        Registration.registerInner N env
          ⟨ms, some ⟨env.allocRegionDev, 0, List.replicate N none⟩⟩
          ⟨env.allocRegionDev, 0, List.replicate N none⟩
          [ChrdevEvent.allocChrdevRegion ms N] := rfl

theorem register_none_ok (N : Nat) (env : ChrdevEnv) (ms : Nat)
    (hN32 : N < 2 ^ 32) (hN1 : 0 < N) (hrc : env.allocRegionRc = 0)
    (p : Nat) (hp : env.cdevAllocPtr = some p) (hadd : env.cdevAddRc = 0) :
    Registration.register N env (Registration.new ms) =
      (⟨ms, some ⟨env.allocRegionDev, 1,
          (List.replicate N none).set 0 (some ⟨p⟩)⟩⟩,
       [ChrdevEvent.allocChrdevRegion ms N, ChrdevEvent.cdevAlloc,
        ChrdevEvent.cdevInit p,
        ChrdevEvent.cdevAdd p (env.allocRegionDev % 2 ^ 32) 1],
       .ok ()) := by
  have hempty : (List.replicate N none).getD 0
      (none : Option SafeCdev) = none := by simp
  have h := registerInner_ok N env ms
    ⟨env.allocRegionDev, 0, List.replicate N none⟩
    [ChrdevEvent.allocChrdevRegion ms N] hN1 hempty p hp hadd
  rw [show Registration.new ms = (⟨ms, none⟩ : Registration) from rfl,
      register_none_unfold, if_neg (by omega), if_neg (by simp [hrc])]
  simpa using h

theorem register_full (N : Nat) (env : ChrdevEnv) (ms : Nat)
    (inner : RegistrationInner) (hfull : inner.used = N) :
    Registration.register N env ⟨ms, some inner⟩ =
      (⟨ms, some inner⟩, [], .error Error.EINVAL) := by
  simp [Registration.register, Registration.registerInner, hfull]

theorem runRegisters_ok (N : Nat) (envs : List ChrdevEnv) :
    ∀ (ms : Nat) (inner : RegistrationInner),
      inner.wf N → (∀ e ∈ envs, e.ok) → inner.used + envs.length ≤ N →
      ∃ inner' : RegistrationInner,
        (runRegisters N envs ⟨ms, some inner⟩).1 = ⟨ms, some inner'⟩ ∧
        inner'.wf N ∧ inner'.dev = inner.dev ∧
        inner'.used = inner.used + envs.length ∧
        ∀ res ∈ (runRegisters N envs ⟨ms, some inner⟩).2,
          res = .ok () := by
  induction envs with
  | nil =>
      intro ms inner hwf _ _
      exact ⟨inner, rfl, hwf, rfl, by simp [runRegisters],
        by simp [runRegisters]⟩
  | cons e rest ih =>
      intro ms inner hwf hok hle
      obtain ⟨hrc0, hpS, hadd⟩ := hok e (by simp)
      obtain ⟨p, hp⟩ := Option.isSome_iff_exists.mp hpS
      have hlt : inner.used < N := by
        simp only [List.length_cons] at hle; omega
      have hstep := register_some_ok N e ms inner hwf hlt p hp hadd
      have hwf' := wf_step N inner p hwf hlt
      obtain ⟨inner', hstate, hwfF, hdev, husedF, hres⟩ :=
        ih ms { inner with
                cdevs := inner.cdevs.set inner.used (some ⟨p⟩),
                used := inner.used + 1 }
          hwf' (fun e' he' => hok e' (by simp [he']))
          (by dsimp only; simp only [List.length_cons] at hle; omega)
      have husedF' : inner'.used = inner.used + 1 + rest.length := by
        simpa using husedF
      refine ⟨inner', ?_, hwfF, by simpa using hdev, ?_, ?_⟩
      · simp only [runRegisters, hstep]
        exact hstate
      · simp only [List.length_cons]
        omega
      · intro res hres2
        simp only [runRegisters, hstep, List.mem_cons] at hres2
        rcases hres2 with h | h
        · exact h
        · exact hres res h

/-- C1: for every capacity `N ≥ 1` (fitting the `c_uint` conversion of
chrdev.rs line 148), if the environment answers every namespace and
per-handle allocation of `N` `register` calls successfully, all `N` calls
return `Ok`; the resulting registry has `used = N` and `N` populated
slots; and one further `register` call with any environment fails with
`EINVAL`, issues no external call, and returns the registry completely
unchanged (same `used`, same slots, same allocated namespace `dev`). -/
theorem chrdev_register_capacity (N : Nat) (hN1 : 1 ≤ N)
    (hN32 : N < 2 ^ 32) (ms : Nat) (envs : List ChrdevEnv)
    (hlen : envs.length = N) (hok : ∀ e ∈ envs, e.ok)
    (envExtra : ChrdevEnv) :
    (∀ res ∈ (runRegisters N envs (Registration.new ms)).2,
      res = .ok ()) ∧
    ∃ inner : RegistrationInner,
      (runRegisters N envs (Registration.new ms)).1 = ⟨ms, some inner⟩ ∧
      inner.used = N ∧
      (∀ i, i < N → (inner.cdevs.getD i none).isSome = true) ∧
      Registration.register N envExtra ⟨ms, some inner⟩ =
        (⟨ms, some inner⟩, [], .error Error.EINVAL) := by
  cases envs with
  | nil => simp at hlen; omega
  | cons e rest =>
      obtain ⟨hrc0, hpS, hadd⟩ := hok e (by simp)
      obtain ⟨p, hp⟩ := Option.isSome_iff_exists.mp hpS
      have h1 := register_none_ok N e ms hN32 (by omega) hrc0 p hp hadd
      have hwf1 : RegistrationInner.wf N
          ⟨e.allocRegionDev, 1, (List.replicate N none).set 0 (some ⟨p⟩)⟩ := by
        have := wf_step N ⟨e.allocRegionDev, 0, List.replicate N none⟩ p
          (wf_fresh N e.allocRegionDev) (by dsimp only; omega)
        simpa using this
      obtain ⟨innerF, hstate, hwfF, hdev, husedF, hresults⟩ :=
        runRegisters_ok N rest ms
          ⟨e.allocRegionDev, 1, (List.replicate N none).set 0 (some ⟨p⟩)⟩
          hwf1 (fun e' he' => hok e' (by simp [he']))
          (by simp only [List.length_cons] at hlen; simp; omega)
      have husedN : innerF.used = N := by
        simp only [List.length_cons] at hlen
        simp only [husedF]; omega
      refine ⟨?_, innerF, ?_, husedN, ?_, ?_⟩
      · intro res hres
        simp only [runRegisters, h1, List.mem_cons] at hres
        rcases hres with h | h
        · exact h
        · exact hresults res h
      · simp only [runRegisters, h1]
        exact hstate
      · intro i hi
        exact (hwfF.2.2 i hi).1 (husedN ▸ hi)
      · exact register_full N envExtra ms innerF husedN

/-- Witness for C1 at `N = 1` with concrete environments. -/
theorem chrdev_register_capacity_witness :
    (∀ res ∈ (runRegisters 1 [⟨0, 100, some 7, 0⟩]
        (Registration.new 3)).2, res = .ok ()) ∧
    ∃ inner : RegistrationInner,
      (runRegisters 1 [⟨0, 100, some 7, 0⟩] (Registration.new 3)).1 =
        ⟨3, some inner⟩ ∧
      inner.used = 1 ∧
      (∀ i, i < 1 → (inner.cdevs.getD i none).isSome = true) ∧
      Registration.register 1 ⟨0, 200, some 9, 0⟩ ⟨3, some inner⟩ =
        (⟨3, some inner⟩, [], .error Error.EINVAL) :=
  chrdev_register_capacity 1 (by decide) (by norm_num) 3
    [⟨0, 100, some 7, 0⟩] rfl (by decide) ⟨0, 200, some 9, 0⟩

/-- C3: when `cdev_add` fails during a `register` call on a registry with
free capacity, the call returns exactly the error carrying `cdev_add`'s
return code, the freshly allocated handle is released — the event trace
of the call ends with `cdev_del` on the allocated pointer, issued before
the error propagates — and the registry state is returned completely
unchanged: `used` is the same and no slot is newly populated. -/
theorem chrdev_cdev_add_failure (N ms : Nat) (inner : RegistrationInner)
    (hlt : inner.used < N) (env : ChrdevEnv) (p : Nat)
    (hp : env.cdevAllocPtr = some p) (hrc : env.cdevAddRc ≠ 0) :
    Registration.register N env ⟨ms, some inner⟩ =
      (⟨ms, some inner⟩,
       [ChrdevEvent.cdevAlloc, ChrdevEvent.cdevInit p,
        ChrdevEvent.cdevAdd p ((inner.dev + inner.used % 2 ^ 32) % 2 ^ 32) 1,
        ChrdevEvent.cdevDel p],
       .error (Error.from_kernel_errno env.cdevAddRc)) := by
  simp [Registration.register, Registration.registerInner, hlt.ne, hp, hrc]

/-- Witness for C3 at a concrete registry and environment. -/
theorem chrdev_cdev_add_failure_witness :
    Registration.register 2 ⟨0, 0, some 7, -19⟩
        ⟨3, some ⟨100, 1, [some ⟨5⟩, none]⟩⟩ =
      (⟨3, some ⟨100, 1, [some ⟨5⟩, none]⟩⟩,
       [ChrdevEvent.cdevAlloc, ChrdevEvent.cdevInit 7,
        ChrdevEvent.cdevAdd 7 101 1, ChrdevEvent.cdevDel 7],
       .error (Error.from_kernel_errno (-19))) :=
  chrdev_cdev_add_failure 2 3 ⟨100, 1, [some ⟨5⟩, none]⟩ (by decide)
    ⟨0, 0, some 7, -19⟩ 7 rfl (by decide)


theorem filterMap_del_all_some (l : List (Option SafeCdev))
    (h : ∀ s ∈ l, s.isSome = true) :
    l.filterMap (fun s => s.map (fun c => ChrdevEvent.cdevDel c.ptr)) =
      (l.map (fun s => (s.getD ⟨0⟩).ptr)).map ChrdevEvent.cdevDel := by
  induction l with
  | nil => rfl
  | cons s rest ih =>
      obtain ⟨c, hc⟩ := Option.isSome_iff_exists.mp (h s (by simp))
      subst hc
      simp [ih (fun x hx => h x (by simp [hx]))]

theorem filterMap_del_all_none (l : List (Option SafeCdev))
    (h : ∀ s ∈ l, s = none) :
    l.filterMap (fun s => s.map (fun c => ChrdevEvent.cdevDel c.ptr)) = [] := by
  induction l with
  | nil => rfl
  | cons s rest ih =>
      have hs := h s (by simp)
      subst hs
      simp [ih (fun x hx => h x (by simp [hx]))]

/-- C2: tearing down a well-formed registry with `used` registered slots
issues exactly one `cdev_del` per registered slot — slot `i`'s own
pointer, slots `0..used` in order — followed by the single
`unregister_chrdev_region` namespace release, and nothing else; in
particular every per-slot release happens before the namespace
release. -/
theorem chrdev_teardown_order (N ms : Nat) (inner : RegistrationInner)
    (hwf : inner.wf N) :
    ∃ ptrs : List Nat, ptrs.length = inner.used ∧
      (∀ i, i < inner.used →
        inner.cdevs.getD i none = some ⟨ptrs.getD i 0⟩) ∧
      Registration.dropEvents N ⟨ms, some inner⟩ =
        ptrs.map ChrdevEvent.cdevDel ++
          [ChrdevEvent.unregisterChrdevRegion inner.dev N] := by
  obtain ⟨hlen, hle, hslots⟩ := hwf
  have htakeSome : ∀ s ∈ inner.cdevs.take inner.used, s.isSome = true := by
    intro s hs
    obtain ⟨i, hi, hgi⟩ := List.mem_iff_getElem.mp hs
    have hi2 := hi
    rw [List.length_take] at hi2
    have hiu : i < inner.used := by omega
    have hgi2 : inner.cdevs[i]? = some s := by
      rw [← List.getElem?_take_of_lt hiu, List.getElem?_eq_getElem hi]
      exact congrArg some hgi
    have hgetD := (hslots i (by omega)).1 hiu
    rw [List.getD_eq_getElem?_getD, hgi2, Option.getD_some] at hgetD
    exact hgetD
  have hdropNone : ∀ s ∈ inner.cdevs.drop inner.used, s = none := by
    intro s hs
    obtain ⟨i, hi, hgi⟩ := List.mem_iff_getElem.mp hs
    have hi2 := hi
    rw [List.length_drop] at hi2
    have hiN : inner.used + i < N := by omega
    have hgi2 : inner.cdevs[inner.used + i]? = some s := by
      rw [← List.getElem?_drop, List.getElem?_eq_getElem hi]
      exact congrArg some hgi
    have hgetD := (hslots (inner.used + i) hiN).2 (by omega)
    rw [List.getD_eq_getElem?_getD, hgi2, Option.getD_some] at hgetD
    exact hgetD
  refine ⟨(inner.cdevs.take inner.used).map (fun s => (s.getD ⟨0⟩).ptr),
    ?_, ?_, ?_⟩
  · simp; omega
  · intro i hi
    have h1 : i < inner.cdevs.length := by omega
    have hgetD := (hslots i (by omega)).1 hi
    obtain ⟨c, hc⟩ := Option.isSome_iff_exists.mp hgetD
    have hci : inner.cdevs[i]? = some (some c) := by
      simp only [List.getD_eq_getElem?_getD, List.getElem?_eq_getElem h1,
        Option.getD_some] at hc
      simp [List.getElem?_eq_getElem h1, hc]
    rw [hc]
    simp [List.getD_eq_getElem?_getD, List.getElem?_take_of_lt hi, hci]
  · simp only [Registration.dropEvents]
    rw [filterMap_del_all_some _ htakeSome, filterMap_del_all_none _ hdropNone]
    simp

/-- Witness for C2 at a concrete well-formed registry. -/
theorem chrdev_teardown_order_witness :
    ∃ ptrs : List Nat, ptrs.length = 1 ∧
      (∀ i, i < 1 →
        ([some ⟨7⟩, none] : List (Option SafeCdev)).getD i none =
          some ⟨ptrs.getD i 0⟩) ∧
      Registration.dropEvents 2 ⟨3, some ⟨100, 1, [some ⟨7⟩, none]⟩⟩ =
        ptrs.map ChrdevEvent.cdevDel ++
          [ChrdevEvent.unregisterChrdevRegion 100 2] :=
  chrdev_teardown_order 2 3 ⟨100, 1, [some ⟨7⟩, none]⟩ (by decide)

theorem storeCChars_eq (s : List Nat) :
    ∀ (buf : List Int) (i : Nat), i + s.length ≤ buf.length →
      storeCChars buf s i =
        buf.take i ++ s.map cCharOfByte ++ buf.drop (i + s.length) := by
  induction s with
  | nil =>
      intro buf i h
      simp [storeCChars]
  | cons b rest ih =>
      intro buf i h
      have hi : i < buf.length := by
        simp only [List.length_cons] at h; omega
      have hlen2 : (i + 1) + rest.length ≤
          (buf.set i (cCharOfByte b)).length := by
        simp only [List.length_set, List.length_cons] at h ⊢; omega
      rw [storeCChars, ih _ _ hlen2]
      have htake : (buf.set i (cCharOfByte b)).take (i + 1) =
          buf.take i ++ [cCharOfByte b] := by
        rw [List.set_eq_take_cons_drop _ hi, List.take_append_eq_append_take]
        have h1 : (buf.take i).length = i :=
          List.length_take_of_le (le_of_lt hi)
        rw [List.take_take, h1]
        simp [Nat.min_eq_right (Nat.le_succ i)]
      have hdrop : (buf.set i (cCharOfByte b)).drop (i + 1 + rest.length) =
          buf.drop (i + 1 + rest.length) :=
        List.drop_set_of_lt _ _ (by omega)
      rw [htake, hdrop]
      have harith : i + 1 + rest.length = i + (rest.length + 1) := by omega
      simp [harith]

theorem storeCChars_replicate (s : List Nat) (h : s.length ≤ 128) :
    storeCChars (List.replicate 128 0) s 0 =
      s.map cCharOfByte ++ List.replicate (128 - s.length) 0 := by
  have h0 := storeCChars_eq s (List.replicate 128 0) 0 (by simp [h])
  rw [h0]
  simp only [List.take_zero, List.nil_append, Nat.zero_add,
    List.drop_replicate]

theorem cCharOfByte_zero : cCharOfByte 0 = 0 := rfl

theorem replicate_int_zero_succ (k : Nat) :
    (0 : Int) :: List.replicate k (0 : Int) = List.replicate (k + 1) 0 :=
  (List.replicate_succ 0 k).symm

theorem new_of_device_id_with_nul (s : List Nat) (h : s.length < 128) :
    ConstOfMatchTable.new_of_device_id (CStr.asBytesWithNul s) =
      { name := List.replicate 32 0
        type_ := List.replicate 32 0
        compatible := s.map cCharOfByte ++
          List.replicate (128 - s.length) 0
        data := 0 } := by
  have hlen : (CStr.asBytesWithNul s).length ≤ 128 := by
    simp only [CStr.asBytesWithNul, List.length_append, List.length_cons,
      List.length_nil]
    omega
  have hrep := storeCChars_replicate (CStr.asBytesWithNul s) hlen
  have hcompat : storeCChars (List.replicate 128 0)
      (CStr.asBytesWithNul s) 0 =
      s.map cCharOfByte ++ List.replicate (128 - s.length) 0 := by
    rw [hrep]
    simp only [CStr.asBytesWithNul, List.map_append, List.map_cons,
      List.map_nil, cCharOfByte_zero, List.length_append, List.length_cons,
      List.length_nil, List.append_assoc, List.cons_append, List.nil_append,
      replicate_int_zero_succ]
    congr 1
    congr 1
    omega
  unfold ConstOfMatchTable.new_of_device_id
  rw [show zeroedOfDeviceId.compatible = List.replicate 128 0 from rfl,
    hcompat]
  rfl

/-- C6: for every list of compatibility strings, each fitting the
128-byte `compatible` buffer together with its nul terminator,
`new_const` yields a table of `N + 1` entries where entry `i` holds input
string `i` in order (null-padded to the buffer size, all other fields
zero) and the final sentinel entry is all-zero; the constructed value's
`sentinel` field is the all-zero entry, and the construction is a pure
(side-effect-free, deterministic) function of its input. -/
theorem const_of_match_table_spec (compatibles : List (List Nat))
    (hfit : ∀ s ∈ compatibles, s.length < 128) :
    ((ConstOfMatchTable.new_const compatibles).entries.length =
      compatibles.length + 1) ∧
    (∀ i, i < compatibles.length →
      (ConstOfMatchTable.new_const compatibles).entries.getD i
          zeroedOfDeviceId =
        { name := List.replicate 32 0
          type_ := List.replicate 32 0
          compatible := (compatibles.getD i []).map cCharOfByte ++
            List.replicate (128 - (compatibles.getD i []).length) 0
          data := 0 }) ∧
    ((ConstOfMatchTable.new_const compatibles).entries.getD
      compatibles.length zeroedOfDeviceId = zeroedOfDeviceId) ∧
    (ConstOfMatchTable.new_const compatibles).sentinel = zeroedOfDeviceId := by
  refine ⟨by simp [ConstOfMatchTable.new_const, ConstOfMatchTable.entries],
    ?_, ?_, rfl⟩
  · intro i hi
    have hilen : i < (compatibles.map (fun s =>
        ConstOfMatchTable.new_of_device_id (CStr.asBytesWithNul s))).length := by
      simpa using hi
    have hci : compatibles[i]? = some compatibles[i] :=
      List.getElem?_eq_getElem hi
    have hgd : compatibles.getD i [] = compatibles[i] := by
      rw [List.getD_eq_getElem?_getD, hci, Option.getD_some]
    simp only [ConstOfMatchTable.new_const, ConstOfMatchTable.entries,
      List.getD_eq_getElem?_getD, List.getElem?_append_left hilen,
      List.getElem?_map, hci, Option.map_some', Option.getD_some]
    rw [new_of_device_id_with_nul _ (hfit _ (List.getElem_mem hi))]
  · simp [ConstOfMatchTable.new_const, ConstOfMatchTable.entries,
      List.getD_eq_getElem?_getD, List.getElem?_append_right]

/-- Witness for C6 at a concrete pair of strings. -/
theorem const_of_match_table_spec_witness :
    ((ConstOfMatchTable.new_const [[98, 99], [100]]).entries.length = 3) ∧
    (∀ i, i < 2 →
      (ConstOfMatchTable.new_const [[98, 99], [100]]).entries.getD i
          zeroedOfDeviceId =
        { name := List.replicate 32 0
          type_ := List.replicate 32 0
          compatible := (([[98, 99], [100]].getD i []).map cCharOfByte) ++
            List.replicate (128 - ([[98, 99], [100]].getD i []).length) 0
          data := 0 }) ∧
    ((ConstOfMatchTable.new_const [[98, 99], [100]]).entries.getD 2
      zeroedOfDeviceId = zeroedOfDeviceId) ∧
    (ConstOfMatchTable.new_const [[98, 99], [100]]).sentinel =
      zeroedOfDeviceId :=
  const_of_match_table_spec [[98, 99], [100]] (by decide)

/-- C7: the run-time `of_device_id` builder fails with `EINVAL` — and
produces no entry at all — exactly when the C string (content plus nul
terminator) does not fit the 128-byte `compatible` buffer; whenever it
accepts, the produced entry holds the content bytes followed by a zero
byte inside the buffer (at index `content.length < 128`), i.e. the copied
string is null-terminated within the buffer. -/
theorem platform_new_of_device_id_spec (content : List Nat) :
    (Platform.new_of_device_id (CStr.asBytesWithNul content) =
        .error Error.EINVAL ↔ 128 ≤ content.length) ∧
    (content.length < 128 →
      Platform.new_of_device_id (CStr.asBytesWithNul content) =
        .ok { name := List.replicate 32 0
              type_ := List.replicate 32 0
              compatible := content.map cCharOfByte ++
                0 :: List.replicate (127 - content.length) 0
              data := 0 }) := by
  constructor
  · constructor
    · intro herr
      by_contra hlt
      push_neg at hlt
      have hc : ¬ ((CStr.asBytesWithNul content).length > 128) := by
        simp only [CStr.asBytesWithNul, List.length_append,
          List.length_cons, List.length_nil]
        omega
      unfold Platform.new_of_device_id at herr
      rw [if_neg hc] at herr
      exact Except.noConfusion herr
    · intro hge
      have hc : (CStr.asBytesWithNul content).length > 128 := by
        simp only [CStr.asBytesWithNul, List.length_append,
          List.length_cons, List.length_nil]
        omega
      unfold Platform.new_of_device_id
      rw [if_pos hc]
  · intro h
    have hc : ¬ ((CStr.asBytesWithNul content).length > 128) := by
      simp only [CStr.asBytesWithNul, List.length_append, List.length_cons,
        List.length_nil]
      omega
    have hbody : Platform.new_of_device_id (CStr.asBytesWithNul content) =
        .ok (ConstOfMatchTable.new_of_device_id
          (CStr.asBytesWithNul content)) := by
      unfold Platform.new_of_device_id
      rw [if_neg hc]
      rfl
    rw [hbody, new_of_device_id_with_nul content h]
    have hform : List.replicate (128 - content.length) (0 : Int) =
        0 :: List.replicate (127 - content.length) 0 := by
      rw [show (128 : Nat) - content.length = (127 - content.length) + 1
          from by omega, List.replicate_succ]
    rw [hform]

/-- Witness for C7: a 128-content-byte string is rejected with `EINVAL`;
a two-byte string is accepted and null-terminated inside the buffer. -/
theorem platform_new_of_device_id_spec_witness :
    Platform.new_of_device_id
        (CStr.asBytesWithNul (List.replicate 128 65)) =
      .error Error.EINVAL ∧
    Platform.new_of_device_id (CStr.asBytesWithNul [98, 99]) =
      .ok { name := List.replicate 32 0
            type_ := List.replicate 32 0
            compatible := [98, 99].map cCharOfByte ++
              0 :: List.replicate 125 0
            data := 0 } :=
  ⟨(platform_new_of_device_id_spec (List.replicate 128 65)).1.mpr
      (by simp),
   (platform_new_of_device_id_spec [98, 99]).2 (by decide)⟩

/-- C8: `Regmap::write` returns `Ok(())` exactly when the environment's
`regmap_write` returns 0, and otherwise returns the error built from that
very return code (recoverable via `to_kernel_errno`); `Regmap::read`
returns `Ok` with the value the environment stored exactly when
`regmap_read` returns 0, and otherwise the error carrying that code. -/
theorem regmap_errno_passthrough (env : RegmapEnv) (reg val : Nat) :
    (Regmap.write env reg val = .ok () ↔ env.writeRc = 0) ∧
    (env.writeRc ≠ 0 →
      Regmap.write env reg val =
        .error (Error.from_kernel_errno env.writeRc) ∧
      (Error.from_kernel_errno env.writeRc).to_kernel_errno =
        env.writeRc) ∧
    ((∃ v, Regmap.read env reg = .ok v) ↔ env.readRc = 0) ∧
    (env.readRc = 0 →
      Regmap.read env reg = .ok (env.readVal % 2 ^ 32)) ∧
    (env.readRc ≠ 0 →
      Regmap.read env reg =
        .error (Error.from_kernel_errno env.readRc) ∧
      (Error.from_kernel_errno env.readRc).to_kernel_errno =
        env.readRc) := by
  refine ⟨?_, ?_, ?_, ?_, ?_⟩
  · constructor
    · intro h
      by_contra hne
      simp [Regmap.write, hne] at h
    · intro h
      simp [Regmap.write, h]
  · intro h
    exact ⟨by simp [Regmap.write, h], rfl⟩
  · constructor
    · rintro ⟨v, hv⟩
      by_contra hne
      simp [Regmap.read, hne] at hv
    · intro h
      exact ⟨env.readVal % 2 ^ 32, by simp [Regmap.read, h]⟩
  · intro h
    simp [Regmap.read, h]
  · intro h
    exact ⟨by simp [Regmap.read, h], rfl⟩

/-- Witness for C8 at a succeeding and a failing environment. -/
theorem regmap_errno_passthrough_witness :
    Regmap.write ⟨0, 0, 5⟩ 4 262144 = .ok () ∧
    Regmap.read ⟨0, 0, 5⟩ 4 = .ok 5 ∧
    Regmap.write ⟨-5, -3, 7⟩ 0 1 =
      .error (Error.from_kernel_errno (-5)) ∧
    (Error.from_kernel_errno (-5)).to_kernel_errno = -5 ∧
    Regmap.read ⟨-5, -3, 7⟩ 8 = .error (Error.from_kernel_errno (-3)) ∧
    (Error.from_kernel_errno (-3)).to_kernel_errno = -3 :=
  ⟨(regmap_errno_passthrough ⟨0, 0, 5⟩ 4 262144).1.mpr rfl,
   (regmap_errno_passthrough ⟨0, 0, 5⟩ 4 262144).2.2.2.1 rfl,
   ((regmap_errno_passthrough ⟨-5, -3, 7⟩ 0 1).2.1 (by decide)).1,
   ((regmap_errno_passthrough ⟨-5, -3, 7⟩ 0 1).2.1 (by decide)).2,
   ((regmap_errno_passthrough ⟨-5, -3, 7⟩ 8 1).2.2.2.2 (by decide)).1,
   ((regmap_errno_passthrough ⟨-5, -3, 7⟩ 8 1).2.2.2.2 (by decide)).2⟩

/-- C9: for a non-empty output buffer at offset 0, when the `RNG_STATUS`
register read succeeds: if its value shifted right by 24 bits is 0, the
handler returns `Ok 0` and the buffer is untouched; if it is at least 1
and the `RNG_DATA` register read succeeds, the handler appends exactly
the 4 bytes of the `RNG_DATA` value to the buffer and returns `Ok 4`. -/
theorem rng_read_spec (env : RngEnv) (buf : IoBuffer)
    (hbuf : buf.isEmpty = false) (hst : env.statusRc = 0) :
    ((env.statusVal % 2 ^ 32) >>> 24 = 0 →
      RngDevice.read env buf 0 = (buf, .ok 0)) ∧
    ((env.statusVal % 2 ^ 32) >>> 24 ≠ 0 → env.dataRc = 0 →
      RngDevice.read env buf 0 =
        ({ buf with written :=
            buf.written ++ u32Bytes (env.dataVal % 2 ^ 32) }, .ok 4) ∧
      (u32Bytes (env.dataVal % 2 ^ 32)).length = 4) := by
  constructor
  · intro hzero
    have hzero' : (env.statusVal % 4294967296) >>> 24 = 0 := by
      simpa using hzero
    simp [RngDevice.read, hbuf, Regmap.read, hst, hzero']
  · intro hpos hdata
    have hpos' : ¬ (env.statusVal % 4294967296) >>> 24 = 0 := by
      simpa using hpos
    refine ⟨?_, by simp [u32Bytes]⟩
    simp [RngDevice.read, hbuf, Regmap.read, hst, hpos', hdata]

/-- Witness for C9: a device reporting 0 words leaves the buffer alone;
a device reporting 2 words yields the 4 data-register bytes. -/
theorem rng_read_spec_witness :
    RngDevice.read ⟨0, 0, 0, 0x11223344⟩ ⟨false, []⟩ 0 =
      (⟨false, []⟩, .ok 0) ∧
    RngDevice.read ⟨0, 0x02000000, 0, 0x11223344⟩ ⟨false, []⟩ 0 =
      (⟨false, [0x44, 0x33, 0x22, 0x11]⟩, .ok 4) ∧
    (u32Bytes (0x11223344 % 2 ^ 32)).length = 4 :=
  ⟨(rng_read_spec ⟨0, 0, 0, 0x11223344⟩ ⟨false, []⟩ rfl rfl).1 (by decide),
   by
    have h := (rng_read_spec ⟨0, 0x02000000, 0, 0x11223344⟩ ⟨false, []⟩
      rfl rfl).2 (by decide) rfl
    simpa using h.1,
   ((rng_read_spec ⟨0, 0x02000000, 0, 0x11223344⟩ ⟨false, []⟩
      rfl rfl).2 (by decide) rfl).2⟩

/-- C10: a platform-driver `Registration` is registered with the
environment at most once: `register` on an already-registered value fails
with `EINVAL`, issues no external call and returns the state unchanged; a
successful `register` sets the `registered` flag; and `Drop` issues
`platform_driver_unregister` exactly once when the flag is set and never
when it is not. -/
theorem platform_registration_once (env : Platform.PlatformEnv)
    (namePtr : Nat) (ofId : List Nat) (r : Platform.Registration) :
    (r.registered = true →
      Platform.Registration.register env namePtr ofId r =
        (r, [], .error Error.EINVAL)) ∧
    (∀ r' evs, Platform.Registration.register env namePtr ofId r =
        (r', evs, .ok ()) → r'.registered = true) ∧
    ((Platform.Registration.dropEvents r).count
        Platform.PlatformEvent.platformDriverUnregister =
      if r.registered then 1 else 0) ∧
    (r.registered = false → Platform.Registration.dropEvents r = []) := by
  refine ⟨?_, ?_, ?_, ?_⟩
  · intro h
    simp [Platform.Registration.register, h]
  · intro r' evs h
    by_cases hr : r.registered
    · simp [Platform.Registration.register, hr] at h
    · simp only [Platform.Registration.register, hr, if_false] at h
      cases hid : Platform.new_of_device_id ofId with
      | error e => simp [hid] at h
      | ok id =>
          rw [hid] at h
          by_cases hrc : env.registerRc < 0
          · simp [hrc] at h
          · simp only [hrc, if_false] at h
            obtain ⟨h1, _⟩ := Prod.mk.injEq .. ▸ h
            rw [← h1]
  · by_cases hr : r.registered <;>
      simp [Platform.Registration.dropEvents, hr]
  · intro h
    simp [Platform.Registration.dropEvents, h]

/-- Witness for C10 at concrete registrations. -/
theorem platform_registration_once_witness :
    (Platform.Registration.register ⟨0⟩ 5 [98]
        { Platform.Registration.default with registered := true } =
      ({ Platform.Registration.default with registered := true }, [],
       .error Error.EINVAL)) ∧
    ((Platform.Registration.register ⟨0⟩ 5 [98]
        Platform.Registration.default).1.registered = true) ∧
    ((Platform.Registration.dropEvents
        { Platform.Registration.default with registered := true }).count
        Platform.PlatformEvent.platformDriverUnregister = 1) ∧
    Platform.Registration.dropEvents Platform.Registration.default = [] := by
  have h := platform_registration_once ⟨0⟩ 5 [98]
    { Platform.Registration.default with registered := true }
  have h0 := platform_registration_once ⟨0⟩ 5 [98]
    Platform.Registration.default
  refine ⟨h.1 rfl, ?_, ?_, h0.2.2.2 rfl⟩
  · exact h0.2.1 (Platform.Registration.register ⟨0⟩ 5 [98]
      Platform.Registration.default).1
      (Platform.Registration.register ⟨0⟩ 5 [98]
        Platform.Registration.default).2.1 rfl
  · simpa using h.2.2.1
